import Mathlib

/-!
Verification of the osyllabi retrieval pipeline: a shallow embedding of
`osyllabi/generator/resource/manager.py` (resource deduplication, truncation,
context extraction) and `osyllabi/rag/engine.py` (RAG engine orchestration),
together with theorems settling the specification claims about them.

Python dictionaries are modelled as association lists in iteration
(insertion) order; optional dictionary keys are modelled with `Option`;
raising code is modelled with `Except`.
-/

/-- Whitespace as the Python method `str.strip` and the regex class `\s` treat it
(ASCII part): space, tab, newline, carriage return, vertical tab, form feed. -/
def pyIsSpace (c : Char) : Bool :=
  c = ' ' || c = '\t' || c = '\n' || c = '\r' || c = '\x0b' || c = '\x0c'

/-- Python `str.strip()` on a character list: drop whitespace from both ends. -/
def pyStrip (l : List Char) : List Char :=
  ((l.dropWhile pyIsSpace).reverse.dropWhile pyIsSpace).reverse

/-- Python `str.strip()` on a string. -/
def pyStripStr (s : String) : String :=
  String.mk (pyStrip s.data)

/-- Helper for `collapseWS`: the flag records whether the previous character
was whitespace (in which case further whitespace is absorbed into the same
run). -/
def collapseAux : Bool → List Char → List Char
  | _, [] => []
  | prevWs, c :: rest =>
    if pyIsSpace c then
      if prevWs then collapseAux true rest
      else ' ' :: collapseAux true rest
    else c :: collapseAux false rest

/-- Python regex substitution replacing every maximal whitespace run by a
single space, as `_deduplicate_resources` applies it to the signature. -/
def collapseWS (l : List Char) : List Char :=
  collapseAux false l

/-- The data dictionary of one resource entry, as read by the manager:
`data.get("title", ...)` and `data.get("content", "")`; a missing key is
`none`. -/
structure RData where
  title : Option String
  content : Option String
deriving DecidableEq

/-- A collected resource set (`Dict[str, Any]` in the source): `urls` and
`files` are insertion-ordered mappings from resource id to data
(`resources.get("urls", {})` makes a missing key behave as the empty
mapping, so the lists model both); `stats` is `none` when the `"stats"`
key is missing, which matters because `_deduplicate_resources` indexes it
without a default; `keywords` models `resources.get("metadata", {}).get("keywords", [])`. -/
structure Resources where
  urls : List (String × RData)
  files : List (String × RData)
  stats : Option (List (String × Nat))
  keywords : List String
deriving DecidableEq

/-- Python `data.get("content", "")`. -/
def contentOf (d : RData) : String :=
  d.content.getD ""

/-- The near-duplicate signature from `_deduplicate_resources`:
`content[:100].strip().lower()` followed by the whitespace-collapsing regex substitution.
`Char.toLower` models Python `str.lower()` (they agree on ASCII). -/
def signatureOf (c : String) : String :=
  String.mk (collapseWS ((pyStrip (c.data.take 100)).map Char.toLower))

/-- The per-namespace deduplication loop of `_deduplicate_resources`:
`seen` is the signature set accumulated so far; an entry with empty content
is skipped, an entry whose signature is already in the set is skipped, and
otherwise the entry is kept and its signature recorded. -/
def deduplicateAux (seen : List String) : List (String × RData) → List (String × RData)
  | [] => []
  | (k, d) :: rest =>
    if contentOf d = "" then deduplicateAux seen rest
    else if signatureOf (contentOf d) ∈ seen then deduplicateAux seen rest
    else (k, d) :: deduplicateAux (signatureOf (contentOf d) :: seen) rest

/-- Deduplication of one namespace, starting from an empty signature set
(the source uses a separate set for `urls` and for `files`). -/
def deduplicateList (l : List (String × RData)) : List (String × RData) :=
  deduplicateAux [] l

/-- Python dictionary item assignment `d[k] = v` on an association list with
distinct keys: an existing key keeps its position, a new key is appended. -/
def setKey : List (String × Nat) → String → Nat → List (String × Nat)
  | [], k, v => [(k, v)]
  | (k', v') :: rest, k, v =>
    if k' = k then (k, v) :: rest else (k', v') :: setKey rest k v

/-- Python dictionary lookup `d[k]` on an association list. -/
def getKey : List (String × Nat) → String → Option Nat
  | [], _ => none
  | (k', v') :: rest, k => if k' = k then some v' else getKey rest k

/-- Models `ResourceManager._deduplicate_resources`: deduplicate `urls` and `files`
independently, then execute
`resources["stats"]["duplicates_removed"] = urls_removed + files_removed`,
which raises `KeyError` when the `"stats"` key is missing.  (In the source
the `urls`/`files` fields are reassigned before that lookup runs; the
`Except` model discards the partially mutated value on the error path,
which no claim observes.) -/
def deduplicateResources (r : Resources) : Except String Resources :=
  let uniqueUrls := deduplicateList r.urls
  let uniqueFiles := deduplicateList r.files
  let urlsRemoved := r.urls.length - uniqueUrls.length
  let filesRemoved := r.files.length - uniqueFiles.length
  match r.stats with
  | none => .error "KeyError: stats"
  | some st =>
      .ok { r with
              urls := uniqueUrls
              files := uniqueFiles
              stats := some (setKey st "duplicates_removed" (urlsRemoved + filesRemoved)) }

/-- The keep condition of the claim, for one entry: content is
nonempty and no earlier entry (in `prior`) has nonempty content with the
same signature. -/
def keepEntry (prior : List (String × RData)) (e : String × RData) : Bool :=
  contentOf e.2 ≠ "" &&
    prior.all (fun p =>
      !(contentOf p.2 ≠ "" && signatureOf (contentOf p.2) = signatureOf (contentOf e.2)))

/-- Walk the namespace in iteration order, keeping exactly the entries
satisfying `keepEntry` relative to all earlier entries. -/
def dedupSpecGo (prior : List (String × RData)) : List (String × RData) → List (String × RData)
  | [] => []
  | e :: rest =>
    (if keepEntry prior e then [e] else []) ++ dedupSpecGo (prior ++ [e]) rest

/-- The description the specification gives of one-namespace deduplication: an
entry is removed exactly when an earlier entry has the same signature (or
its content is empty); the first occurrence of each signature is kept. -/
def dedupSpec (l : List (String × RData)) : List (String × RData) :=
  dedupSpecGo [] l

/-- The fixed marker appended by `_truncate_content`. -/
def truncSuffix : String := "... [content truncated]"

/-- Models the body of `_truncate_content` for one entry: when
`len(content) > max_content_length`, replace the content with
`content[:max_content_length] + "... [content truncated]"`. -/
def truncResource (m : Nat) (d : RData) : RData :=
  if m < (contentOf d).length then
    { d with content := some (String.mk ((contentOf d).data.take m) ++ truncSuffix) }
  else d

/-- Models `ResourceManager._truncate_content`: apply the truncation to every entry
of both namespaces (the source mutates each entry dictionary in place
while iterating; mapping over the association lists is the same
transformation). -/
def truncateContent (m : Nat) (r : Resources) : Resources :=
  { r with
      urls := r.urls.map (fun p => (p.1, truncResource m p.2))
      files := r.files.map (fun p => (p.1, truncResource m p.2)) }

/-- Models `pathlib.Path(p).name` for ordinary POSIX paths: the final path
component, after discarding empty components and single-dot components. -/
def pathName (p : String) : String :=
  (((p.splitOn "/").filter (fun s => s ≠ "" && s ≠ ".")).getLast?).getD ""

/-- The 500-character display cap used by `extract_context`:
`content[:500] + "..."` when the content is longer than 500 characters. -/
def capContent (c : String) : String :=
  if 500 < c.length then String.mk (c.data.take 500) ++ "..." else c

/-- Models `ResourceManager.extract_context`, with the effect of the call on its
`resources` argument made explicit in the result (the body only reads the
mappings, so the returned resources are the input).  The `topic` parameter
is accepted, as in the source signature. -/
def extractContextS (r : Resources) (topic : String) (maxItems : Nat) : String × Resources :=
  let urlParts : List String :=
    if r.urls = [] then []
    else
      "## Web Resources\n" ::
        (r.urls.take maxItems).map (fun p =>
          let title := p.2.title.getD p.1
          let content := capContent (contentOf p.2)
          "### " ++ title ++ "\n" ++ content ++ "\n")
  let fileParts : List String :=
    if r.files = [] then []
    else
      "## Local Resources\n" ::
        (r.files.take maxItems).map (fun p =>
          let title := p.2.title.getD (pathName p.1)
          let content := capContent (contentOf p.2)
          "### " ++ title ++ "\n" ++ content ++ "\n")
  let kwParts : List String :=
    if r.keywords = [] then []
    else ["## Keywords\n" ++ String.intercalate ", " (r.keywords.take 20)]
  (String.intercalate "\n\n" (urlParts ++ fileParts ++ kwParts), r)

/-- Modelled from the spec: `TextChunker.chunk_text` (`osyllabi.rag.chunking`)
is not under `src/`.  Section 4.3: walk a window of width `size` across the
text advancing by `size - overlap` per step; the final chunk includes the
tail even when shorter than `size`.  Fuel-indexed so the recursion is
structural; the wrapper supplies fuel exceeding the character count, which
each step (of at least one character) cannot exhaust, so the fuel base case
coincides with the `length ≤ size` base case. -/
def chunkGoF : Nat → Nat → Nat → List Char → List (List Char)
  | 0, _, _, cs => [cs]
  | fuel + 1, size, step, cs =>
    if cs.length ≤ size ∨ step = 0 then [cs]
    else cs.take size :: chunkGoF fuel size step (cs.drop step)

/-- Modelled from the spec: the chunk sequence of one document (§4.3).  Empty or
whitespace-only text yields zero chunks; otherwise the fixed-size
overlapping windows with step `size - overlap`. -/
def chunkText (size overlap : Nat) (text : String) : List String :=
  if pyStripStr text = "" then []
  else (chunkGoF (text.data.length + 1) size (size - overlap) text.data).map String.mk

/-- One stored chunk record of the vector store, as the specification type
`VectorRecord` (§3): chunk text, its embedding, and the source id carried
in the metadata. -/
structure VRecord where
  text : String
  embedding : List Int
  source : Option String
deriving DecidableEq

/-- One retrieval result, as the specification type `SearchResult` (§3). -/
structure SearchResult where
  text : String
  score : ℚ
  source : Option String
deriving DecidableEq

/-- Modelled from the spec: the `source_filter` acceptance test of
`VectorDatabase.search` (§4.4) — `None` admits every candidate; a present
filter (a single id is the one-element list) admits exactly the candidates
whose metadata source matches. -/
def matchesFilter (filter : Option (List String)) (src : Option String) : Bool :=
  match filter with
  | none => true
  | some fl =>
    match src with
    | some s => fl.contains s
    | none => false

/-- Modelled from the spec: `VectorDatabase.search` (`osyllabi.rag.database`)
is not under `src/`.  Section 4.4: restrict candidates to those matching
`source_filter`, score each against the query, exclude scores below
`threshold`, sort descending by score, and truncate to `top_k`.  The
similarity metric (cosine similarity in the source) is the abstract
parameter `sim`. -/
def vectorSearch (sim : List Int → List Int → ℚ) (records : List VRecord)
    (q : List Int) (topK : Nat) (threshold : ℚ) (filter : Option (List String)) :
    List SearchResult :=
  let cands := records.filter (fun rec => matchesFilter filter rec.source)
  let scored := cands.map (fun rec => SearchResult.mk rec.text (sim q rec.embedding) rec.source)
  let kept := scored.filter (fun sr => decide (threshold ≤ sr.score))
  (kept.insertionSort (fun a b => b.score ≤ a.score)).take topK

/-- The running counters kept in `RAGEngine.stats`. -/
structure EStats where
  documentsAdded : Nat
  chunksAdded : Nat
  queriesPerformed : Nat
deriving DecidableEq

/-- The engine state the claims observe: the records of the vector store and the
optional `stats` attribute.  `stats = none` models a Python instance on
which the `stats` attribute was never assigned (the source hasattr check
is false). -/
structure Engine where
  records : List VRecord
  stats : Option EStats
deriving DecidableEq

/-- Models `RAGEngine.__init__`: a fresh engine has an empty store and, notably,
never assigns `self.stats`, so the attribute is absent. -/
def initEngine : Engine :=
  { records := [], stats := none }

/-- Models `RAGEngine.purge`: wipe the store and reset (here: create) the `stats`
attribute with zeroed counters. -/
def purgeEngine (e : Engine) : Engine :=
  { e with records := [], stats := some (EStats.mk 0 0 0) }

/-- Models `RAGEngine.retrieve`: embed the query (a provider failure is wrapped
into a single error), delegate to the search of the store, and bump
`queries_performed` only when the `stats` attribute exists.  The result
pairs the returned value (or raised error) with the engine state after the
call. -/
def retrieve (sim : List Int → List Int → ℚ) (embedOne : String → Except String (List Int))
    (e : Engine) (query : String) (topK : Nat) (threshold : ℚ)
    (filter : Option (List String)) : Except String (List SearchResult) × Engine :=
  match embedOne query with
  | .error msg => (.error ("Failed to generate embedding for query: " ++ msg), e)
  | .ok qe =>
      (.ok (vectorSearch sim e.records qe topK threshold filter),
       { e with
           stats := e.stats.map (fun s =>
             { s with queriesPerformed := s.queriesPerformed + 1 }) })

/-- Models `RAGEngine.add_document`: blank text returns 0 immediately; an empty
chunk list returns 0; an embedding-provider failure is wrapped into a
single error before anything is stored; on success the chunk records are
stored and the counters are bumped only when the `stats` attribute exists.
The result is (returned value or raised error, engine state after the
call, number of embedding-provider calls made). -/
def addDocument (size overlap : Nat)
    (embedMany : List String → Except String (List (List Int)))
    (e : Engine) (text : String) (source : Option String) :
    Except String Nat × Engine × Nat :=
  if pyStripStr text = "" then (.ok 0, e, 0)
  else
    let chunks := chunkText size overlap text
    if chunks = [] then (.ok 0, e, 0)
    else
      match embedMany chunks with
      | .error msg => (.error ("Failed to generate embeddings for document: " ++ msg), e, 1)
      | .ok embs =>
          let recs := (chunks.zip embs).map (fun ce => VRecord.mk ce.1 ce.2 source)
          (.ok chunks.length,
           { records := e.records ++ recs
             stats := e.stats.map (fun s =>
               { s with
                   documentsAdded := s.documentsAdded + 1
                   chunksAdded := s.chunksAdded + chunks.length }) },
           1)

/-- The `query_count` field of `RAGEngine.get_stats`:
`self.stats.get("queries_performed", 0) if hasattr(self, "stats") else 0`. -/
def queryCount (e : Engine) : Nat :=
  match e.stats with
  | some s => s.queriesPerformed
  | none => 0

/-- The persisted JSON sidecar (`vectors/metadata.json`) as `RAGEngine.load`
reads it: each field is fetched with `config.get(..., default)`, so a
missing field is `none`. -/
structure SidecarConfig where
  embeddingModel : Option String
  chunkSize : Option Nat
  chunkOverlap : Option Nat
deriving DecidableEq

/-- The on-disk state of one run directory that `RAGEngine.load` inspects:
whether `vectors/vector.db` exists, and the sidecar when
`vectors/metadata.json` exists. -/
structure RunFS where
  storeExists : Bool
  config : Option SidecarConfig
deriving DecidableEq

/-- The constructor arguments `load` passes to `RAGEngine.__init__` (the
configuration the reconstructed engine runs with). -/
structure EngineCfg where
  embeddingModel : String
  chunkSize : Nat
  chunkOverlap : Nat
deriving DecidableEq

/-- Models `RAGEngine.load`: no persisted store for the run raises
`FileNotFoundError`; an existing sidecar supplies the persisted
configuration (with the per-field fallbacks of the source); a missing sidecar
falls back to the `__init__` defaults (`"llama3.1:latest"`, 512, 50). -/
def loadEngine (fs : RunFS) (runId : String) : Except String EngineCfg :=
  if fs.storeExists = false then .error ("No RAG data found for run " ++ runId)
  else
    match fs.config with
    | some c =>
        .ok (EngineCfg.mk (c.embeddingModel.getD "llama3") (c.chunkSize.getD 512)
          (c.chunkOverlap.getD 50))
    | none => .ok (EngineCfg.mk "llama3.1:latest" 512 50)

theorem dedupAux_eq_specGo (l : List (String × RData)) :
    ∀ (seen : List String) (prior : List (String × RData)),
      (∀ s, s ∈ seen ↔ ∃ p ∈ prior, contentOf p.2 ≠ "" ∧ signatureOf (contentOf p.2) = s) →
      deduplicateAux seen l = dedupSpecGo prior l := by
  induction l with
  | nil => intro seen prior _; rfl
  | cons e rest ih =>
    intro seen prior hinv
    obtain ⟨k, d⟩ := e
    by_cases hc : contentOf d = ""
    · have hkeep : keepEntry prior (k, d) = false := by
        simp [keepEntry, hc]
      simp only [deduplicateAux, dedupSpecGo, if_pos hc, hkeep, Bool.false_eq_true,
        if_false, List.nil_append]
      refine ih seen (prior ++ [(k, d)]) ?_
      intro s
      rw [hinv s]
      constructor
      · rintro ⟨p, hp, hne, hsig⟩
        exact ⟨p, by simp [hp], hne, hsig⟩
      · rintro ⟨p, hp, hne, hsig⟩
        rcases List.mem_append.1 hp with hp | hp
        · exact ⟨p, hp, hne, hsig⟩
        · rw [List.mem_singleton] at hp
          subst hp
          exact absurd hc hne
    · by_cases hs : signatureOf (contentOf d) ∈ seen
      · obtain ⟨p, hp, hne, hsig⟩ := (hinv _).1 hs
        have hkeep : keepEntry prior (k, d) = false := by
          simp only [keepEntry, Bool.and_eq_false_iff]
          right
          rw [List.all_eq_false]
          exact ⟨p, hp, by simp [hne, hsig]⟩
        simp only [deduplicateAux, dedupSpecGo, if_neg hc, if_pos hs, hkeep,
          Bool.false_eq_true, if_false, List.nil_append]
        refine ih seen (prior ++ [(k, d)]) ?_
        intro s
        rw [hinv s]
        constructor
        · rintro ⟨p', hp', hne', hsig'⟩
          exact ⟨p', by simp [hp'], hne', hsig'⟩
        · rintro ⟨p', hp', hne', hsig'⟩
          rcases List.mem_append.1 hp' with hp' | hp'
          · exact ⟨p', hp', hne', hsig'⟩
          · rw [List.mem_singleton] at hp'
            subst hp'
            exact ⟨p, hp, hne, hsig.trans hsig'⟩
      · have hkeep : keepEntry prior (k, d) = true := by
          simp only [keepEntry, Bool.and_eq_true]
          refine ⟨by simp [hc], ?_⟩
          rw [List.all_eq_true]
          intro p hp
          by_contra hbad
          simp only [Bool.not_eq_true, Bool.not_eq_false', Bool.and_eq_true,
            decide_eq_true_eq] at hbad
          exact hs ((hinv _).2 ⟨p, hp, hbad.1, hbad.2⟩)
        simp only [deduplicateAux, dedupSpecGo, if_neg hc, if_neg hs, hkeep, if_true,
          List.singleton_append]
        congr 1
        refine ih (signatureOf (contentOf d) :: seen) (prior ++ [(k, d)]) ?_
        intro s
        simp only [List.mem_cons]
        constructor
        · rintro (h | h)
          · exact ⟨(k, d), by simp, hc, h.symm⟩
          · obtain ⟨p, hp, hne, hsig⟩ := (hinv s).1 h
            exact ⟨p, by simp [hp], hne, hsig⟩
        · rintro ⟨p, hp, hne, hsig⟩
          rcases List.mem_append.1 hp with hp | hp
          · exact Or.inr ((hinv s).2 ⟨p, hp, hne, hsig⟩)
          · rw [List.mem_singleton] at hp
            subst hp
            exact Or.inl hsig.symm

theorem deduplicateList_eq_dedupSpec (l : List (String × RData)) :
    deduplicateList l = dedupSpec l := by
  refine dedupAux_eq_specGo l [] [] ?_
  intro s
  simp

/-- Claim C1: after a deduplication pass, each namespace holds exactly the
entries selected by the keep rule of the specification — an entry is removed exactly
when an earlier entry of the same namespace has the same signature, entries
with empty content are dropped, the first occurrence of each signature is
kept, and the two namespaces are deduplicated independently of one another
(so a url and a file with equal signatures are both kept). -/
theorem dedup_matches_spec (r r' : Resources) (h : deduplicateResources r = .ok r') :
    r'.urls = dedupSpec r.urls ∧ r'.files = dedupSpec r.files := by
  unfold deduplicateResources at h
  cases hst : r.stats with
  | none => rw [hst] at h; exact absurd h (by simp)
  | some st =>
      rw [hst] at h
      simp only [Except.ok.injEq] at h
      subst h
      exact ⟨deduplicateList_eq_dedupSpec r.urls, deduplicateList_eq_dedupSpec r.files⟩

/-- Claim C1 witness: a concrete resource set with one near-duplicate url
(same signature up to case and whitespace) and one file sharing the url
signature; deduplication keeps the first url, drops the second, and keeps
the file. -/
theorem dedup_matches_spec_witness :
    deduplicateResources
        (Resources.mk
          [("u1", RData.mk none (some "Hello World")), ("u2", RData.mk none (some "HELLO  World"))]
          [("f1", RData.mk none (some "Hello World"))]
          (some []) []) =
      .ok (Resources.mk
          [("u1", RData.mk none (some "Hello World"))]
          [("f1", RData.mk none (some "Hello World"))]
          (some [("duplicates_removed", 1)]) []) ∧
    (Resources.mk
          [("u1", RData.mk none (some "Hello World"))]
          [("f1", RData.mk none (some "Hello World"))]
          (some [("duplicates_removed", 1)]) []).urls =
        dedupSpec [("u1", RData.mk none (some "Hello World")),
          ("u2", RData.mk none (some "HELLO  World"))] ∧
    (Resources.mk
          [("u1", RData.mk none (some "Hello World"))]
          [("f1", RData.mk none (some "Hello World"))]
          (some [("duplicates_removed", 1)]) []).files =
        dedupSpec [("f1", RData.mk none (some "Hello World"))] := by
  have h : deduplicateResources
      (Resources.mk
        [("u1", RData.mk none (some "Hello World")), ("u2", RData.mk none (some "HELLO  World"))]
        [("f1", RData.mk none (some "Hello World"))]
        (some []) []) =
      .ok (Resources.mk
        [("u1", RData.mk none (some "Hello World"))]
        [("f1", RData.mk none (some "Hello World"))]
        (some [("duplicates_removed", 1)]) []) := by rfl
  obtain ⟨h1, h2⟩ := dedup_matches_spec _ _ h
  exact ⟨h, h1, h2⟩

theorem deduplicateAux_idem (l : List (String × RData)) :
    ∀ seen, deduplicateAux seen (deduplicateAux seen l) = deduplicateAux seen l := by
  induction l with
  | nil => intro seen; rfl
  | cons e rest ih =>
    intro seen
    obtain ⟨k, d⟩ := e
    by_cases hc : contentOf d = ""
    · simp only [deduplicateAux, if_pos hc]
      exact ih seen
    · by_cases hs : signatureOf (contentOf d) ∈ seen
      · simp only [deduplicateAux, if_neg hc, if_pos hs]
        exact ih seen
      · have h1 : deduplicateAux seen ((k, d) :: rest) =
            (k, d) :: deduplicateAux (signatureOf (contentOf d) :: seen) rest := by
          simp only [deduplicateAux, if_neg hc, if_neg hs]
        have h2 : ∀ tail, deduplicateAux seen ((k, d) :: tail) =
            (k, d) :: deduplicateAux (signatureOf (contentOf d) :: seen) tail := by
          intro tail
          simp only [deduplicateAux, if_neg hc, if_neg hs]
        rw [h1, h2, ih (signatureOf (contentOf d) :: seen)]

theorem deduplicateList_idem (l : List (String × RData)) :
    deduplicateList (deduplicateList l) = deduplicateList l :=
  deduplicateAux_idem l []

theorem getKey_setKey (l : List (String × Nat)) (k : String) (v : Nat) :
    getKey (setKey l k v) k = some v := by
  induction l with
  | nil => simp [setKey, getKey]
  | cons p rest ih =>
    obtain ⟨k', v'⟩ := p
    by_cases h : k' = k
    · simp [setKey, getKey, h]
    · simp only [setKey, if_neg h, getKey]
      exact ih

/-- Claim C6: deduplication is idempotent — run on a set that is already
the output of a deduplication pass, it leaves the `urls` and `files`
mappings identical and writes `duplicates_removed = 0` into the stats. -/
theorem dedup_idempotent (r r' r'' : Resources)
    (h1 : deduplicateResources r = .ok r') (h2 : deduplicateResources r' = .ok r'') :
    r''.urls = r'.urls ∧ r''.files = r'.files ∧
    getKey (r''.stats.getD []) "duplicates_removed" = some 0 := by
  unfold deduplicateResources at h1 h2
  cases hst : r.stats with
  | none => rw [hst] at h1; exact absurd h1 (by simp)
  | some st =>
      rw [hst] at h1
      simp only [Except.ok.injEq] at h1
      subst h1
      simp only at h2
      rw [deduplicateList_idem r.urls, deduplicateList_idem r.files] at h2
      simp only [Nat.sub_self, Nat.add_zero, Except.ok.injEq] at h2
      subst h2
      refine ⟨rfl, rfl, ?_⟩
      simp only [Option.getD_some]
      exact getKey_setKey _ _ _

/-- Claim C6 witness: a concrete two-pass run; the second pass changes
neither namespace and records zero removed duplicates. -/
theorem dedup_idempotent_witness :
    deduplicateResources (Resources.mk [("u1", RData.mk none (some "abc"))] [] (some []) []) =
      .ok (Resources.mk [("u1", RData.mk none (some "abc"))] []
        (some [("duplicates_removed", 0)]) []) ∧
    deduplicateResources (Resources.mk [("u1", RData.mk none (some "abc"))] []
        (some [("duplicates_removed", 0)]) []) =
      .ok (Resources.mk [("u1", RData.mk none (some "abc"))] []
        (some [("duplicates_removed", 0)]) []) ∧
    ((Resources.mk [("u1", RData.mk none (some "abc"))] []
        (some [("duplicates_removed", 0)]) []).urls =
      (Resources.mk [("u1", RData.mk none (some "abc"))] []
        (some [("duplicates_removed", 0)]) []).urls ∧
     (Resources.mk [("u1", RData.mk none (some "abc"))] []
        (some [("duplicates_removed", 0)]) []).files =
      (Resources.mk [("u1", RData.mk none (some "abc"))] []
        (some [("duplicates_removed", 0)]) []).files ∧
     getKey ((Resources.mk [("u1", RData.mk none (some "abc"))] []
        (some [("duplicates_removed", 0)]) []).stats.getD []) "duplicates_removed" = some 0) := by
  have h1 : deduplicateResources
      (Resources.mk [("u1", RData.mk none (some "abc"))] [] (some []) []) =
      .ok (Resources.mk [("u1", RData.mk none (some "abc"))] []
        (some [("duplicates_removed", 0)]) []) := by rfl
  have h2 : deduplicateResources
      (Resources.mk [("u1", RData.mk none (some "abc"))] []
        (some [("duplicates_removed", 0)]) []) =
      .ok (Resources.mk [("u1", RData.mk none (some "abc"))] []
        (some [("duplicates_removed", 0)]) []) := by rfl
  exact ⟨h1, h2, dedup_idempotent _ _ _ h1 h2⟩

/-- Claim C7 counterexample: deduplication does raise on a resource set
whose `stats` mapping is missing — the source line
`resources["stats"]["duplicates_removed"] = ...` raises `KeyError`. -/
theorem dedup_raises_without_stats :
    deduplicateResources (Resources.mk [] [] none []) = .error "KeyError: stats" := by rfl

/-- Claim C7 (amended): deduplication completes without error exactly when
the input `stats` mapping is present (it raises a key-lookup error when
`stats` is missing); empty or malformed content is skipped, never
escalated, and the translated truncation stage is a total function, so it
never raises on any input. -/
theorem dedup_ok_iff_stats_present (r : Resources) :
    (∃ r', deduplicateResources r = .ok r') ↔ r.stats ≠ none := by
  unfold deduplicateResources
  cases hst : r.stats with
  | none => simp
  | some st => simp

/-- Claim C7 witness: on a concrete resource set with a stats mapping,
empty content, and a content-free entry, deduplication completes. -/
theorem dedup_ok_iff_stats_present_witness :
    ∃ r', deduplicateResources
        (Resources.mk [("u1", RData.mk none (some "")), ("u2", RData.mk none none)] []
          (some []) []) = .ok r' :=
  (dedup_ok_iff_stats_present
      (Resources.mk [("u1", RData.mk none (some "")), ("u2", RData.mk none none)] []
        (some []) [])).2 (by simp)

theorem string_mk_append_length (l : List Char) (t : String) :
    (String.mk l ++ t).length = l.length + t.length := by
  cases t with
  | mk d => simpa using List.length_append l d

theorem truncResource_exact (m : Nat) (d : RData)
    (h : m < (contentOf d).length) :
    (contentOf (truncResource m d)).length = m + truncSuffix.length := by
  unfold truncResource
  rw [if_pos h]
  simp only [contentOf, Option.getD_some] at h ⊢
  rw [string_mk_append_length, List.length_take]
  have h2 : (d.content.getD "").length = (d.content.getD "").data.length := rfl
  omega

theorem truncResource_unchanged (m : Nat) (d : RData)
    (h : (contentOf d).length ≤ m) : truncResource m d = d := by
  unfold truncResource
  rw [if_neg (by omega)]

theorem truncResource_content_le (m : Nat) (d : RData) :
    (contentOf (truncResource m d)).length ≤ m + truncSuffix.length := by
  by_cases h : m < (contentOf d).length
  · exact le_of_eq (truncResource_exact m d h)
  · rw [truncResource_unchanged m d (by omega)]
    omega

/-- Claim C3: after truncation with limit `m`, every resource in both
namespaces has content of length at most `m + len("... [content truncated]")`;
a resource whose content was at most `m` characters long is unchanged; a
resource whose content exceeded `m` ends with length exactly
`m + len("... [content truncated]")`.  The first conjunct ties each output
entry positionally to `truncResource` of the input entry. -/
theorem truncate_bounds (m : Nat) (r : Resources) :
    ((truncateContent m r).urls = r.urls.map (fun p => (p.1, truncResource m p.2)) ∧
     (truncateContent m r).files = r.files.map (fun p => (p.1, truncResource m p.2))) ∧
    (∀ p ∈ (truncateContent m r).urls ++ (truncateContent m r).files,
        (contentOf p.2).length ≤ m + truncSuffix.length) ∧
    (∀ p ∈ r.urls ++ r.files,
        ((contentOf p.2).length ≤ m → truncResource m p.2 = p.2) ∧
        (m < (contentOf p.2).length →
          (contentOf (truncResource m p.2)).length = m + truncSuffix.length)) := by
  refine ⟨⟨rfl, rfl⟩, ?_, ?_⟩
  · intro p hp
    rcases List.mem_append.1 hp with hp | hp <;>
      · simp only [truncateContent, List.mem_map] at hp
        obtain ⟨q, _, hq⟩ := hp
        subst hq
        exact truncResource_content_le m q.2
  · intro p _
    exact ⟨truncResource_unchanged m p.2, truncResource_exact m p.2⟩

/-- Claim C3 witness: with limit 10, length-3 content is untouched and
length-12 content is cut to exactly `10 + truncSuffix.length` characters;
both facts obtained from the truncation theorem at a concrete resource
set. -/
theorem truncate_bounds_witness :
    truncResource 10 (RData.mk none (some "abc")) = RData.mk none (some "abc") ∧
    (contentOf (truncResource 10 (RData.mk none (some "abcdefghijkl")))).length =
      10 + truncSuffix.length := by
  have h := (truncate_bounds 10 (Resources.mk [("u1", RData.mk none (some "abc"))]
      [("f1", RData.mk none (some "abcdefghijkl"))] (some []) [])).2.2
  exact ⟨(h ("u1", RData.mk none (some "abc")) (by simp)).1 (by decide),
    (h ("f1", RData.mk none (some "abcdefghijkl")) (by simp)).2 (by decide)⟩

/-- Claim C10: the formatted context produced by `extract_context` does not
depend on the `topic` argument, and the call returns its `resources` input
unmodified. -/
theorem extract_context_topic_independent (r : Resources) (t1 t2 : String) (m : Nat) :
    (extractContextS r t1 m).1 = (extractContextS r t2 m).1 ∧
    (extractContextS r t1 m).2 = r :=
  ⟨rfl, rfl⟩

theorem chunkGoF_ne_nil (fuel size step : Nat) (cs : List Char) :
    chunkGoF fuel size step cs ≠ [] := by
  cases fuel with
  | zero => simp [chunkGoF]
  | succ n =>
      simp only [chunkGoF]
      split <;> simp

theorem chunkText_ne_nil (size overlap : Nat) (text : String)
    (h : pyStripStr text ≠ "") : chunkText size overlap text ≠ [] := by
  unfold chunkText
  rw [if_neg h]
  simp [chunkGoF_ne_nil]

/-- Claim C8: on empty or whitespace-only text, `add_document` returns 0
without raising, makes no embedding-provider call, and leaves the engine
(vector store and counters) unchanged. -/
theorem add_document_blank_noop (size overlap : Nat)
    (embedMany : List String → Except String (List (List Int)))
    (e : Engine) (text : String) (source : Option String)
    (h : pyStripStr text = "") :
    addDocument size overlap embedMany e text source = (.ok 0, e, 0) := by
  unfold addDocument
  rw [if_pos h]

/-- Claim C8 witness: whitespace-only text on a concrete engine, with an
embedding provider that would fail if it were ever called. -/
theorem add_document_blank_noop_witness :
    pyStripStr "  \t " = "" ∧
    addDocument 512 50 (fun _ => .error "unreachable") (Engine.mk [] none) "  \t " none =
      (.ok 0, Engine.mk [] none, 0) :=
  ⟨by decide, add_document_blank_noop 512 50 (fun _ => .error "unreachable")
    (Engine.mk [] none) "  \t " none (by decide)⟩

/-- Claim C5: on non-blank text, when the embedding provider fails,
`add_document` raises a single wrapped embedding-failure error, stores no
chunks, makes exactly one provider call, and leaves the engine (store and
counters) unchanged. -/
theorem add_document_embed_failure (size overlap : Nat)
    (embedMany : List String → Except String (List (List Int)))
    (e : Engine) (text : String) (source : Option String) (msg : String)
    (h1 : pyStripStr text ≠ "")
    (h2 : embedMany (chunkText size overlap text) = .error msg) :
    addDocument size overlap embedMany e text source =
      (.error ("Failed to generate embeddings for document: " ++ msg), e, 1) := by
  unfold addDocument
  rw [if_neg h1, if_neg (chunkText_ne_nil size overlap text h1), h2]

/-- Claim C5 witness: a concrete engine and non-blank document with an
always-failing embedding provider; the call errors and the engine is
returned unchanged. -/
theorem add_document_embed_failure_witness :
    pyStripStr "hello" ≠ "" ∧
    addDocument 512 50 (fun _ => .error "provider down") (Engine.mk [] (some (EStats.mk 0 0 0)))
        "hello" (some "doc1") =
      (.error ("Failed to generate embeddings for document: " ++ "provider down"),
       Engine.mk [] (some (EStats.mk 0 0 0)), 1) :=
  ⟨by decide, add_document_embed_failure 512 50 (fun _ => .error "provider down")
    (Engine.mk [] (some (EStats.mk 0 0 0))) "hello" (some "doc1") "provider down"
    (by decide) rfl⟩

/-- Claim C4 counterexample: on a freshly constructed engine (whose
`stats` attribute was never assigned by `__init__`), one successful
`retrieve` call leaves the reported `query_count` at 0, not 1 — so the
claim that after n successful retrieve calls `stats()` reports
`query_count = n` fails at n = 1. -/
theorem fresh_engine_counters_cex :
    (retrieve (fun _ _ => (0 : ℚ)) (fun _ => .ok [1]) initEngine "q" 5 0 none).1 =
      .ok [] ∧
    queryCount (retrieve (fun _ _ => (0 : ℚ)) (fun _ => .ok [1]) initEngine "q" 5 0 none).2 ≠ 1 := by
  exact ⟨rfl, by decide⟩

/-- Claim C4 (amended): the counters are guarded by the existence of the
`stats` attribute, which `__init__` never creates (`purge` does).  When the
attribute exists, each successful `retrieve` increments
`queries_performed` by 1 and each `add_document` that embeds successfully
increments `documents_added` by 1 and `chunks_added` by the number of
chunks stored; when it is absent — in particular on a freshly constructed
engine — no counter is tracked and `stats()` reports `query_count = 0`
regardless of the number of retrieve calls. -/
theorem engine_counters_guarded (sim : List Int → List Int → ℚ)
    (embedOne : String → Except String (List Int))
    (embedMany : List String → Except String (List (List Int)))
    (size overlap : Nat) (e : Engine) (q t : String) (src : Option String)
    (k : Nat) (th : ℚ) (f : Option (List String)) :
    (∀ qe, embedOne q = .ok qe →
      (retrieve sim embedOne e q k th f).2.stats =
        e.stats.map (fun s => { s with queriesPerformed := s.queriesPerformed + 1 })) ∧
    (∀ embs, pyStripStr t ≠ "" → embedMany (chunkText size overlap t) = .ok embs →
      (addDocument size overlap embedMany e t src).2.1.stats =
        e.stats.map (fun s =>
          { s with
              documentsAdded := s.documentsAdded + 1
              chunksAdded := s.chunksAdded + (chunkText size overlap t).length })) ∧
    (e.stats = none → queryCount (retrieve sim embedOne e q k th f).2 = 0) := by
  refine ⟨?_, ?_, ?_⟩
  · intro qe hq
    unfold retrieve
    rw [hq]
  · intro embs ht hemb
    unfold addDocument
    rw [if_neg ht, if_neg (chunkText_ne_nil size overlap t ht), hemb]
  · intro hn
    unfold retrieve queryCount
    cases hq : embedOne q with
    | error msg => simp [hn]
    | ok qe => simp [hn]

/-- Claim C4 witness (for the amended statement): on a concrete engine
whose `stats` attribute exists (as after `purge`), one successful retrieve
bumps `queries_performed` from 0 to 1, and one successful add of a
one-chunk document bumps `documents_added` and `chunks_added`. -/
theorem engine_counters_guarded_witness :
    (retrieve (fun _ _ => (0 : ℚ)) (fun _ => .ok [1])
        (Engine.mk [] (some (EStats.mk 0 0 0))) "q" 5 0 none).2.stats =
      (some (EStats.mk 0 0 0)).map
        (fun s => { s with queriesPerformed := s.queriesPerformed + 1 }) ∧
    (addDocument 512 50 (fun _ => .ok [[1]])
        (Engine.mk [] (some (EStats.mk 0 0 0))) "hi" none).2.1.stats =
      (some (EStats.mk 0 0 0)).map
        (fun s =>
          { s with
              documentsAdded := s.documentsAdded + 1
              chunksAdded := s.chunksAdded + (chunkText 512 50 "hi").length }) :=
  ⟨(engine_counters_guarded (fun _ _ => (0 : ℚ)) (fun _ => .ok [1]) (fun _ => .ok [[1]])
      512 50 (Engine.mk [] (some (EStats.mk 0 0 0))) "q" "hi" none 5 0 none).1 [1] rfl,
   (engine_counters_guarded (fun _ _ => (0 : ℚ)) (fun _ => .ok [1]) (fun _ => .ok [[1]])
      512 50 (Engine.mk [] (some (EStats.mk 0 0 0))) "q" "hi" none 5 0 none).2.1 [[1]]
      (by decide) rfl⟩

instance searchRelTotal : IsTotal SearchResult (fun a b => b.score ≤ a.score) :=
  ⟨fun a b => le_total b.score a.score⟩

instance searchRelTrans : IsTrans SearchResult (fun a b => b.score ≤ a.score) :=
  ⟨fun _ _ _ hab hbc => le_trans hbc hab⟩

theorem vectorSearch_spec (sim : List Int → List Int → ℚ) (records : List VRecord)
    (q : List Int) (k : Nat) (th : ℚ) (f : Option (List String)) :
    (vectorSearch sim records q k th f).length ≤ k ∧
    (∀ r ∈ vectorSearch sim records q k th f, th ≤ r.score) ∧
    (vectorSearch sim records q k th f).Pairwise (fun a b => b.score ≤ a.score) ∧
    (∀ fl, f = some fl → ∀ r ∈ vectorSearch sim records q k th f,
      ∃ s, r.source = some s ∧ s ∈ fl) := by
  unfold vectorSearch
  refine ⟨List.length_take_le k _, ?_, ?_, ?_⟩
  · intro r hr
    have hr1 := List.take_subset k _ hr
    rw [List.mem_insertionSort] at hr1
    have hr2 := List.mem_filter.1 hr1
    exact of_decide_eq_true hr2.2
  · exact List.Pairwise.sublist (List.take_sublist k _)
      (List.sorted_insertionSort (fun a b : SearchResult => b.score ≤ a.score) _)
  · intro fl hfl r hr
    have hr1 := List.take_subset k _ hr
    rw [List.mem_insertionSort] at hr1
    have hr2 := (List.mem_filter.1 hr1).1
    rw [List.mem_map] at hr2
    obtain ⟨rec, hrec, hreq⟩ := hr2
    have hrec2 := (List.mem_filter.1 hrec).2
    subst hfl
    cases hsrc : rec.source with
    | none => rw [hsrc] at hrec2; simp [matchesFilter] at hrec2
    | some s =>
        rw [hsrc] at hrec2
        simp only [matchesFilter] at hrec2
        refine ⟨s, ?_, ?_⟩
        · rw [← hreq]
          exact hsrc
        · simpa [List.contains_eq_any_beq, List.any_eq_true] using hrec2

/-- Claim C2: every successful `retrieve` returns at most `top_k` results,
each with score at least `threshold`, sorted in descending score order,
and, when a `source_filter` is present, only results whose metadata source
matches the filter. -/
theorem retrieve_search_contract (sim : List Int → List Int → ℚ)
    (embedOne : String → Except String (List Int)) (e : Engine) (q : String)
    (k : Nat) (th : ℚ) (f : Option (List String)) (rs : List SearchResult)
    (h : (retrieve sim embedOne e q k th f).1 = .ok rs) :
    rs.length ≤ k ∧ (∀ r ∈ rs, th ≤ r.score) ∧
    rs.Pairwise (fun a b => b.score ≤ a.score) ∧
    (∀ fl, f = some fl → ∀ r ∈ rs, ∃ s, r.source = some s ∧ s ∈ fl) := by
  unfold retrieve at h
  cases hq : embedOne q with
  | error msg => rw [hq] at h; exact absurd h (by simp)
  | ok qe =>
      rw [hq] at h
      simp only [Except.ok.injEq] at h
      subst h
      exact vectorSearch_spec sim e.records qe k th f

/-- Claim C2 witness: a concrete store with two sources and a filter for
`"s1"`; the successful retrieve returns the single matching record and the
contract holds for it. -/
theorem retrieve_search_contract_witness :
    ((retrieve (fun _ _ => (1 : ℚ)) (fun _ => .ok [1])
        (Engine.mk [VRecord.mk "a" [1] (some "s1"), VRecord.mk "b" [2] (some "s2")] none)
        "q" 5 0 (some ["s1"])).1 =
      .ok [SearchResult.mk "a" 1 (some "s1")]) ∧
    ([SearchResult.mk "a" 1 (some "s1")].length ≤ 5 ∧
     (∀ r ∈ [SearchResult.mk "a" 1 (some "s1")], (0 : ℚ) ≤ r.score) ∧
     ([SearchResult.mk "a" 1 (some "s1")]).Pairwise (fun a b => b.score ≤ a.score) ∧
     (∀ fl, (some ["s1"] : Option (List String)) = some fl →
       ∀ r ∈ [SearchResult.mk "a" 1 (some "s1")], ∃ s, r.source = some s ∧ s ∈ fl)) := by
  have h : (retrieve (fun _ _ => (1 : ℚ)) (fun _ => .ok [1])
      (Engine.mk [VRecord.mk "a" [1] (some "s1"), VRecord.mk "b" [2] (some "s2")] none)
      "q" 5 0 (some ["s1"])).1 =
      .ok [SearchResult.mk "a" 1 (some "s1")] := by rfl
  exact ⟨h, retrieve_search_contract (fun _ _ => (1 : ℚ)) (fun _ => .ok [1])
    (Engine.mk [VRecord.mk "a" [1] (some "s1"), VRecord.mk "b" [2] (some "s2")] none)
    "q" 5 0 (some ["s1"]) [SearchResult.mk "a" 1 (some "s1")] h⟩

/-- Claim C9: `load` fails with the run-not-found error exactly when no
persisted vector store exists for the run; when the store and the config
sidecar both exist, the engine is reconstructed with the persisted
configuration; when the store exists but the sidecar is missing, the
engine is constructed with the default chunk parameters (512 and 50). -/
theorem load_run_contract (fs : RunFS) (rid : String) :
    ((∃ msg, loadEngine fs rid = .error msg) ↔ fs.storeExists = false) ∧
    (∀ em cs co, fs.storeExists = true →
      fs.config = some (SidecarConfig.mk (some em) (some cs) (some co)) →
      loadEngine fs rid = .ok (EngineCfg.mk em cs co)) ∧
    (fs.storeExists = true → fs.config = none →
      loadEngine fs rid = .ok (EngineCfg.mk "llama3.1:latest" 512 50)) := by
  refine ⟨?_, ?_, ?_⟩
  · cases hst : fs.storeExists with
    | false => simp [loadEngine, hst]
    | true =>
        simp only [loadEngine, hst]
        cases fs.config <;> simp
  · intro em cs co hst hcfg
    simp [loadEngine, hst, hcfg]
  · intro hst hcfg
    simp [loadEngine, hst, hcfg]

/-- Claim C9 witness: a run whose store and full sidecar exist loads with
the persisted configuration, obtained from the load theorem at concrete
inputs. -/
theorem load_run_contract_witness :
    loadEngine (RunFS.mk true (some (SidecarConfig.mk (some "llama3.1:latest") (some 256)
        (some 32)))) "run1" =
      .ok (EngineCfg.mk "llama3.1:latest" 256 32) :=
  (load_run_contract (RunFS.mk true (some (SidecarConfig.mk (some "llama3.1:latest") (some 256)
      (some 32)))) "run1").2.1 "llama3.1:latest" 256 32 rfl rfl
